import Mathlib

/-!
Verification of the network selection engine of `laptop_wifi_priority`
(`src/laptop_wifi_priority_service/main.go`).

The Go program is shallowly embedded:
* an access-point observation (`map[string]interface{}` with keys
  `ssid`/`frequency`/`strength`/`isKnown`) becomes the structure `Wifin`;
* `getFrequencyPriority` and the `sort.Slice` comparator are translated
  directly;
* `sort.Slice` itself (Go ≥ 1.19, `src/sort/zsortfunc.go`, pdqsort) is
  embedded below: the `lessSwap` interface of the Go standard library only
  lets the algorithm call `Less(i, j)` and `Swap(i, j)`, so the evolving
  slice is represented, faithfully, as the initial contents composed with
  an index permutation `π : Nat → Nat`; `Less(i, j)` becomes
  `o (π i) (π j)` for the comparison oracle `o u v = less l[u] l[v]`,
  and `Swap(i, j)` transposes `π` at `i, j`;
* the body of one iteration of `main`'s poll loop becomes a pure function
  from an environment (what NetworkManager would answer) to the list of
  externally visible calls it performs (`cycleTrace`);
* the backoff variable `noNetExtra_sleep` becomes a rational number of
  milliseconds; the `float64` multiplication by `1.2` is modelled as exact
  multiplication by `6/5` (for the values reached in the first steps the
  `float64` computation rounds to exactly these rationals as well);
* `getKnownNetworks` is embedded over an abstract list of profile
  read results, with the unchecked Go type assertion
  `cs["802-11-wireless"]["ssid"].([]uint8)` modelled as an `Except`
  error (a Go runtime panic).
-/

namespace LaptopWifi

/-! ## Strings: `strings.ToLower` and `strings.Contains`

`strings.ToLower` is modelled on ASCII letters (the only case mapping the
SSID keywords `6ghz`/`5g`/… exercise). -/

/-- ASCII lower-casing of one character (`unicode.ToLower` restricted to
ASCII). -/
def toLowerChar (c : Char) : Char :=
  if 'A' ≤ c ∧ c ≤ 'Z' then Char.ofNat (c.toNat + 32) else c

/-- Go `strings.ToLower`, ASCII fragment. -/
def strToLower (s : String) : String :=
  ⟨s.data.map toLowerChar⟩

/-- Does `sub` occur as a contiguous run of `s`? -/
def charsContain : List Char → List Char → Bool
  | [], sub => sub.isEmpty
  | c :: rest, sub => sub.isPrefixOf (c :: rest) || charsContain rest sub

/-- Go `strings.Contains s sub`. -/
def strContains (s sub : String) : Bool :=
  charsContain s.data sub.data

/-! ## Data model: one scanned access point

`getWifiNetworks` builds, per access point, the map
`{"ssid": …, "frequency": …, "strength": …, "isKnown": false}`. -/

/-- One access-point observation of `getWifiNetworks`. `strength` is the
`uint8` signal strength, `frequency` the `uint32` frequency in MHz. -/
structure Wifin where
  ssid : String
  frequency : Nat
  strength : Nat
  isKnown : Bool
deriving DecidableEq, Repr

/-- Placeholder observation (used only for out-of-range list reads, which
the embedded algorithms never perform on the index ranges they touch). -/
def wifinDefault : Wifin := ⟨"", 0, 0, false⟩

/-! ## `getFrequencyPriority`: band score from SSID keywords -/

/-- Source function `getFrequencyPriority`: weight by SSID keywords after
lower-casing. -/
def getFrequencyPriority (ssid : String) : Nat :=
  let l := strToLower ssid
  if strContains l "6ghz" || strContains l "6g" then 60
  else if strContains l "5ghz" || strContains l "5g" then 50
  else if strContains l "2.4ghz" || strContains l "2ghz" || strContains l "2g" then 24
  else 0

/-! ## The `sort.Slice` comparator of `main` (lines 297–316) -/

/-- The closure passed to `sort.Slice` in `main`: known first, then signal
strength descending, then SSID band score descending. -/
def rankLess (a b : Wifin) : Bool :=
  if a.isKnown ≠ b.isKnown then a.isKnown
  else if a.strength ≠ b.strength then decide (a.strength > b.strength)
  else decide (getFrequencyPriority a.ssid > getFrequencyPriority b.ssid)

/-- The `mark known` loop of `main`: set `isKnown` when some known SSID
equals the observation's SSID (the flag is only ever raised). -/
def markKnown (known : List String) (w : Wifin) : Wifin :=
  if known.any (fun ks => w.ssid == ks) then { w with isKnown := true } else w

/-! ## `sort.Slice` (Go ≥ 1.19): pdqsort over an index permutation

Transcribed from `src/sort/zsortfunc.go` of the Go standard library (the
code `sort.Slice` runs through its `lessSwap` interface).  The slice state
is the permutation of initial positions, kept as a `List Nat` read through
`permGet`; the oracle `o u v` answers `less` on the elements initially at
positions `u` and `v`, so Go's `data.Less(i, j)` is
`o (permGet π i) (permGet π j)` and `data.Swap(i, j)` transposes the list
at `i` and `j`.  Since `lessSwap` gives the algorithm no other access to
the data, this factoring is exact.  Loops are primitive recursion on an
explicit iteration bound; every bound passed below exceeds the number of
iterations the Go loop can perform on the same range. -/

/-- Position read of the permutation. -/
def permGet (π : List Nat) (k : Nat) : Nat := π.getD k 0

/-- Go `data.Swap(i, j)` acting on the position permutation. -/
def swapP (π : List Nat) (i j : Nat) : List Nat :=
  (π.set i (permGet π j)).set j (permGet π i)

/-- Go `insertionSort_func`, inner loop:
`for j := i; j > a && data.Less(j, j-1); j-- { data.Swap(j, j-1) }`. -/
def insInner (o : Nat → Nat → Bool) (a : Nat) : Nat → List Nat → List Nat
  | 0, π => π
  | j + 1, π =>
    if a ≤ j ∧ o (permGet π (j + 1)) (permGet π j) = true then
      insInner o a j (swapP π (j + 1) j)
    else π

/-- Go `insertionSort_func`, outer loop over `i = a+1, …, b-1`; the first
argument counts the remaining iterations. -/
def insLoop (o : Nat → Nat → Bool) (a : Nat) : Nat → Nat → List Nat → List Nat
  | 0, _, π => π
  | n + 1, i, π => insLoop o a n (i + 1) (insInner o a i π)

/-- Go `insertionSort_func(data, a, b)`. -/
def insertionSortGo (o : Nat → Nat → Bool) (a b : Nat) (π : List Nat) : List Nat :=
  insLoop o a (b - (a + 1)) (a + 1) π

/-- Go `siftDown_func(data, lo=root, hi, first)`; the iteration bound `hi`
dominates the loop's trip count (the child index grows geometrically). -/
def siftDownGo (o : Nat → Nat → Bool) (first hi : Nat) :
    Nat → Nat → List Nat → List Nat
  | 0, _, π => π
  | fuel + 1, root, π =>
    let child := 2 * root + 1
    if hi ≤ child then π
    else
      let child :=
        if child + 1 < hi ∧ o (permGet π (first + child)) (permGet π (first + child + 1)) = true then
          child + 1
        else child
      if o (permGet π (first + root)) (permGet π (first + child)) = false then π
      else siftDownGo o first hi fuel child (swapP π (first + root) (first + child))

/-- Go `heapSort_func`, first loop: `for i := (hi-1)/2; i >= 0; i--`; the
argument is `i + 1` for the next root `i`. -/
def heapBuildLoop (o : Nat → Nat → Bool) (first hi : Nat) :
    Nat → List Nat → List Nat
  | 0, π => π
  | i + 1, π => heapBuildLoop o first hi i (siftDownGo o first hi hi i π)

/-- Go `heapSort_func`, second loop: `for i := hi-1; i >= 0; i--`:
swap the maximum to the end, re-sift. -/
def heapPopLoop (o : Nat → Nat → Bool) (first : Nat) :
    Nat → List Nat → List Nat
  | 0, π => π
  | i + 1, π => heapPopLoop o first i (siftDownGo o first i i 0 (swapP π first (first + i)))

/-- Go `heapSort_func(data, a, b)`. -/
def heapSortGo (o : Nat → Nat → Bool) (a b : Nat) (π : List Nat) : List Nat :=
  let hi := b - a
  heapPopLoop o a hi (heapBuildLoop o a hi ((hi - 1) / 2 + 1) π)

/-- Go `partition_func` scan: `for i <= j && data.Less(i, a) { i++ }`;
returns the final `i`. -/
def scanLtUp (o : Nat → Nat → Bool) (aIdx j : Nat) : Nat → Nat → List Nat → Nat
  | 0, i, _ => i
  | fuel + 1, i, π =>
    if i ≤ j ∧ o (permGet π i) (permGet π aIdx) = true then
      scanLtUp o aIdx j fuel (i + 1) π
    else i

/-- Go `partition_func` scan: `for i <= j && !data.Less(j, a) { j-- }`;
returns the final `j`. -/
def scanGeDown (o : Nat → Nat → Bool) (aIdx i : Nat) : Nat → Nat → List Nat → Nat
  | 0, j, _ => j
  | fuel + 1, j, π =>
    if i ≤ j ∧ o (permGet π j) (permGet π aIdx) = false then
      scanGeDown o aIdx i fuel (j - 1) π
    else j

/-- Go `partition_func`, central loop: scan from both ends, swap, repeat;
returns the final `j` and the permutation. -/
def partLoop (o : Nat → Nat → Bool) (aIdx bnd : Nat) :
    Nat → Nat → Nat → List Nat → Nat × List Nat
  | 0, _, j, π => (j, π)
  | fuel + 1, i, j, π =>
    let i2 := scanLtUp o aIdx j (bnd + 2) i π
    let j2 := scanGeDown o aIdx i2 (bnd + 2) j π
    if j2 < i2 then (j2, π)
    else partLoop o aIdx bnd fuel (i2 + 1) (j2 - 1) (swapP π i2 j2)

/-- Go `partition_func(data, a, b, pivot)`: returns
`(newpivot, alreadyPartitioned, π)`. -/
def partitionGo (o : Nat → Nat → Bool) (a b pivot : Nat) (π0 : List Nat) :
    Nat × Bool × List Nat :=
  let π := swapP π0 a pivot
  let i := a + 1
  let j := b - 1
  let i2 := scanLtUp o a j (b + 2) i π
  let j2 := scanGeDown o a i2 (b + 2) j π
  if j2 < i2 then (j2, true, swapP π j2 a)
  else
    let π2 := swapP π i2 j2
    let r := partLoop o a b (b + 2) (i2 + 1) (j2 - 1) π2
    (r.1, false, swapP r.2 r.1 a)

/-- Go `partitionEqual_func` scan: `for i <= j && !data.Less(a, i) { i++ }`. -/
def scanEqUp (o : Nat → Nat → Bool) (aIdx j : Nat) : Nat → Nat → List Nat → Nat
  | 0, i, _ => i
  | fuel + 1, i, π =>
    if i ≤ j ∧ o (permGet π aIdx) (permGet π i) = false then
      scanEqUp o aIdx j fuel (i + 1) π
    else i

/-- Go `partitionEqual_func` scan: `for i <= j && data.Less(a, j) { j-- }`. -/
def scanGtDown (o : Nat → Nat → Bool) (aIdx i : Nat) : Nat → Nat → List Nat → Nat
  | 0, j, _ => j
  | fuel + 1, j, π =>
    if i ≤ j ∧ o (permGet π aIdx) (permGet π j) = true then
      scanGtDown o aIdx i fuel (j - 1) π
    else j

/-- Go `partitionEqual_func`, central loop; returns the final `i` and the
permutation. -/
def partEqLoop (o : Nat → Nat → Bool) (aIdx bnd : Nat) :
    Nat → Nat → Nat → List Nat → Nat × List Nat
  | 0, i, _, π => (i, π)
  | fuel + 1, i, j, π =>
    let i2 := scanEqUp o aIdx j (bnd + 2) i π
    let j2 := scanGtDown o aIdx i2 (bnd + 2) j π
    if j2 < i2 then (i2, π)
    else partEqLoop o aIdx bnd fuel (i2 + 1) (j2 - 1) (swapP π i2 j2)

/-- Go `partitionEqual_func(data, a, b, pivot)`: returns `(newpivot, π)`. -/
def partitionEqualGo (o : Nat → Nat → Bool) (a b pivot : Nat) (π0 : List Nat) :
    Nat × List Nat :=
  let π := swapP π0 a pivot
  partEqLoop o a b (b + 2) (a + 1) (b - 1) π

/-- Go `partialInsertionSort_func`, adjacent-pair scan:
`for i < b && !data.Less(i, i-1) { i++ }`. -/
def padvance (o : Nat → Nat → Bool) (b : Nat) : Nat → Nat → List Nat → Nat
  | 0, i, _ => i
  | fuel + 1, i, π =>
    if i < b ∧ o (permGet π i) (permGet π (i - 1)) = false then
      padvance o b fuel (i + 1) π
    else i

/-- Go `partialInsertionSort_func`, left shift:
`for j := i; j >= 1; j-- { if !data.Less(j, j-1) break; swap }`. -/
def pshiftLeft (o : Nat → Nat → Bool) : Nat → List Nat → List Nat
  | 0, π => π
  | j + 1, π =>
    if o (permGet π (j + 1)) (permGet π j) = true then
      pshiftLeft o j (swapP π (j + 1) j)
    else π

/-- Go `partialInsertionSort_func`, right shift:
`for j := i+1; j < b; j++ { if !data.Less(j, j-1) break; swap }`. -/
def pshiftRight (o : Nat → Nat → Bool) (b : Nat) : Nat → Nat → List Nat → List Nat
  | 0, _, π => π
  | fuel + 1, j, π =>
    if j < b ∧ o (permGet π j) (permGet π (j - 1)) = true then
      pshiftRight o b fuel (j + 1) (swapP π j (j - 1))
    else π

/-- Go `partialInsertionSort_func`, outer loop (at most `maxSteps = 5`
rounds); returns `(fully sorted?, π)`. -/
def partialInsLoop (o : Nat → Nat → Bool) (a b : Nat) :
    Nat → Nat → List Nat → Bool × List Nat
  | 0, _, π => (false, π)
  | steps + 1, i, π =>
    let i2 := padvance o b (b + 2) i π
    if i2 = b then (true, π)
    else if b - a < 50 then (false, π)
    else
      let π2 := swapP π i2 (i2 - 1)
      let π3 := if 2 ≤ i2 - a then pshiftLeft o (i2 - 1) π2 else π2
      let π4 := if 2 ≤ b - i2 then pshiftRight o b (b + 2) (i2 + 1) π3 else π3
      partialInsLoop o a b steps i2 π4

/-- Go `partialInsertionSort_func(data, a, b)`. -/
def partialInsertionSortGo (o : Nat → Nat → Bool) (a b : Nat) (π : List Nat) :
    Bool × List Nat :=
  partialInsLoop o a b 5 (a + 1) π

/-- Go `reverseRange_func`, loop. -/
def revLoop : Nat → Nat → Nat → List Nat → List Nat
  | 0, _, _, π => π
  | fuel + 1, i, j, π =>
    if i < j then revLoop fuel (i + 1) (j - 1) (swapP π i j) else π

/-- Go `reverseRange_func(data, a, b)`. -/
def reverseRangeGo (a b : Nat) (π : List Nat) : List Nat :=
  revLoop (b + 2) a (b - 1) π

/-- Go `bits.Len` (the minimal number of bits to represent `n`); the first
argument bounds the recursion depth. -/
def bitsLenAux : Nat → Nat → Nat
  | 0, _ => 0
  | fuel + 1, n => if n = 0 then 0 else bitsLenAux fuel (n / 2) + 1

/-- Go `bits.Len n`. -/
def bitsLen (n : Nat) : Nat := bitsLenAux (n + 1) n

/-- One step of the `xorshift` generator of `sort` (a `uint64`). -/
def xorshiftNext (r : Nat) : Nat :=
  let r1 := (r ^^^ (r <<< 13)) % 2 ^ 64
  let r2 := (r1 ^^^ (r1 >>> 7)) % 2 ^ 64
  (r2 ^^^ (r2 <<< 17)) % 2 ^ 64

/-- Go `breakPatterns_func(data, a, b)`: three pseudo-random swaps around the
middle (`nextPowerOfTwo length = 1 << bits.Len length`). -/
def breakPatternsGo (a b : Nat) (π : List Nat) : List Nat :=
  let length := b - a
  if 8 ≤ length then
    let modulus := 2 ^ bitsLen length
    let idx := a + length / 4 * 2 - 1
    let r1 := xorshiftNext length
    let o1 := let m := r1 % modulus; if length ≤ m then m - length else m
    let π := swapP π (idx - 1) (a + o1)
    let r2 := xorshiftNext r1
    let o2 := let m := r2 % modulus; if length ≤ m then m - length else m
    let π := swapP π idx (a + o2)
    let r3 := xorshiftNext r2
    let o3 := let m := r3 % modulus; if length ≤ m then m - length else m
    swapP π (idx + 1) (a + o3)
  else π

/-- Go `sortedHint` of the `sort` package. -/
inductive Hint where
  | increasing
  | decreasing
  | unknown
deriving DecidableEq, Repr

/-- Go `order2_func(data, a, b, &swaps)`: returns the two indices in
ascending element order and the updated swap count. -/
def order2Go (o : Nat → Nat → Bool) (π : List Nat) (a b swaps : Nat) :
    Nat × Nat × Nat :=
  if o (permGet π b) (permGet π a) = true then (b, a, swaps + 1) else (a, b, swaps)

/-- Go `median_func(data, a, b, c, &swaps)`: index of the median element. -/
def medianGo (o : Nat → Nat → Bool) (π : List Nat) (a b c swaps : Nat) :
    Nat × Nat :=
  let r1 := order2Go o π a b swaps
  let r2 := order2Go o π r1.2.1 c r1.2.2
  let r3 := order2Go o π r1.1 r2.1 r2.2.2
  (r3.2.1, r3.2.2)

/-- Go `medianAdjacent_func(data, a, &swaps)`: median of positions
`a-1, a, a+1`. -/
def medianAdjacentGo (o : Nat → Nat → Bool) (π : List Nat) (a swaps : Nat) :
    Nat × Nat :=
  medianGo o π (a - 1) a (a + 1) swaps

/-- Go `choosePivot_func(data, a, b)`: pivot index and sortedness hint
(`shortestNinther = 50`, `maxSwaps = 12`). -/
def choosePivotGo (o : Nat → Nat → Bool) (π : List Nat) (a b : Nat) :
    Nat × Hint :=
  let l := b - a
  let i := a + l / 4 * 1
  let j := a + l / 4 * 2
  let k := a + l / 4 * 3
  let r : Nat × Nat :=
    if 8 ≤ l then
      if 50 ≤ l then
        let ri := medianAdjacentGo o π i 0
        let rj := medianAdjacentGo o π j ri.2
        let rk := medianAdjacentGo o π k rj.2
        medianGo o π ri.1 rj.1 rk.1 rk.2
      else medianGo o π i j k 0
    else (j, 0)
  if r.2 = 0 then (r.1, .increasing)
  else if r.2 = 12 then (r.1, .decreasing)
  else (r.1, .unknown)

/-- Go `pdqsort_func(data, a, b, limit)` with the loop and the recursion
driven by an explicit iteration bound; every loop iteration and recursive
call strictly shrinks the range `[a, b)`, so a bound exceeding `b - a`
reproduces the Go control flow exactly (`maxInsertion = 12`). -/
def pdqsortGo (o : Nat → Nat → Bool) :
    Nat → Nat → Nat → Nat → Bool → Bool → List Nat → List Nat
  | 0, _, _, _, _, _, π => π
  | fuel + 1, a, b, limit, wasBalanced, wasPartitioned, π =>
    let length := b - a
    if length ≤ 12 then insertionSortGo o a b π
    else if limit = 0 then heapSortGo o a b π
    else
      let πl : List Nat × Nat :=
        if wasBalanced = false then (breakPatternsGo a b π, limit - 1) else (π, limit)
      let π := πl.1
      let limit := πl.2
      let ph := choosePivotGo o π a b
      let πph : List Nat × Nat × Hint :=
        if ph.2 = Hint.decreasing then
          (reverseRangeGo a b π, (b - 1) - (ph.1 - a), Hint.increasing)
        else (π, ph.1, ph.2)
      let π := πph.1
      let pivot := πph.2.1
      let hint := πph.2.2
      let pis : Bool × List Nat :=
        if wasBalanced = true ∧ wasPartitioned = true ∧ hint = Hint.increasing then
          partialInsertionSortGo o a b π
        else (false, π)
      if pis.1 = true then pis.2
      else
        let π := pis.2
        if 0 < a ∧ o (permGet π (a - 1)) (permGet π pivot) = false then
          let r := partitionEqualGo o a b pivot π
          pdqsortGo o fuel r.1 b limit wasBalanced wasPartitioned r.2
        else
          let r := partitionGo o a b pivot π
          let mid := r.1
          let wasPartitioned := r.2.1
          let π := r.2.2
          let leftLen := mid - a
          let rightLen := b - mid
          let balanceThreshold := length / 8
          let wasBalanced := decide (min leftLen rightLen ≥ balanceThreshold)
          let limit := limit - 1
          if leftLen < rightLen then
            pdqsortGo o fuel (mid + 1) b limit wasBalanced wasPartitioned
              (pdqsortGo o fuel a mid limit wasBalanced wasPartitioned π)
          else
            pdqsortGo o fuel a mid limit wasBalanced wasPartitioned
              (pdqsortGo o fuel (mid + 1) b limit wasBalanced wasPartitioned π)

/-- The permutation `sort.Slice` applies to a slice of length `n` whose
comparison oracle is `o` (`limit = bits.Len n`). -/
def sortSlicePerm (o : Nat → Nat → Bool) (n : Nat) : List Nat :=
  pdqsortGo o (n + 2) 0 n (bitsLen n) true true (List.range n)

/-- Go `sort.Slice l less`: the sorted list. -/
def sortSliceGo (less : α → α → Bool) (dflt : α) (l : List α) : List α :=
  let o : Nat → Nat → Bool := fun u v => less (l.getD u dflt) (l.getD v dflt)
  (sortSlicePerm o l.length).map (fun u => l.getD u dflt)

/-! ## The backoff state (`noNetExtra_sleep`, lines 365–378)

The delay is a rational number of milliseconds.  The cap comparison is
against `100 * time.Second = 100000` ms, the floor against
`500 * time.Millisecond`. -/

/-- The growth applied to `noNetExtra_sleep` in an empty cycle, after the
sleep: raise to 500 ms when below, multiply by `1.2`, cap at 100 s. -/
def growDelay (d : ℚ) : ℚ :=
  let d1 := if d < 500 then 500 else d
  let d2 := d1 * (6 / 5)
  if 100000 < d2 then 100000 else d2

/-- The extra delay slept at the start of the `n`-th consecutive empty
cycle, counting from a fresh (zero) backoff state. -/
def sleptSeq (n : Nat) : ℚ := growDelay^[n] 0

/-! ## One iteration of `main`'s poll loop as an event trace

The environment records what NetworkManager answers during the cycle; the
trace records the externally visible calls the loop body makes, in
program order.  `requestScan` has no call site: the scan trigger appears
in the source only as the comment `(Omitted for brevity …)`. -/

/-- One network device as the activation block sees it: its wireless flag
and the SSIDs of its visible access points. -/
structure Device where
  isWifi : Bool
  aps : List String
deriving DecidableEq, Repr

/-- What the host service would answer during one cycle.  `profilesFor`
is `getConnectionsBySSID`; paths are numbered. -/
structure Env where
  known : List String
  avail : List Wifin
  current : String
  profilesFor : String → List Nat
  devices : List Device

/-- Externally visible calls of one loop iteration. -/
inductive Event where
  | queryKnown
  | queryAvail
  | queryCurrent
  | scanRequest
  | setPriority (path : Nat) (prio : Int)
  | activate (devIdx : Nat) (path : Nat)
deriving DecidableEq, Repr

/-- The ranking pipeline on its inputs: mark the known flag, then
`sort.Slice` with the ranking comparator. -/
def rankLists (known : List String) (avail : List Wifin) : List Wifin :=
  sortSliceGo rankLess wifinDefault (avail.map (markKnown known))

/-- The ranked candidate list of the cycle. -/
def rankedOf (env : Env) : List Wifin :=
  rankLists env.known env.avail

/-- Go `int32(len(avail) - idx + 10)`: the priority written for rank `idx`
in a ranked list of length `n`. -/
def prioVal (n idx : Nat) : Int := (n : Int) - idx + 10

/-- The `set priorities` loop (lines 324–328): for each index of the
ranked list, one write per matching profile path, all with priority
`len - idx + 10`. -/
def priorityWrites (env : Env) : List Event :=
  let ranked := rankedOf env
  ((List.range ranked.length).map (fun idx =>
    (env.profilesFor (ranked.getD idx wifinDefault).ssid).map
      (fun p => Event.setPriority p (prioVal ranked.length idx)))).flatten

/-- The `connect to best` block (lines 331–364): when the ranked list is
non-empty, its head differs from the current SSID and a profile matches,
one activation per wireless device that sees an access point with the
best SSID, using the first matching profile path. -/
def activationEvents (env : Env) : List Event :=
  let ranked := rankedOf env
  if 0 < ranked.length then
    let best := (ranked.getD 0 wifinDefault).ssid
    if best ≠ env.current then
      let paths := env.profilesFor best
      if 0 < paths.length then
        ((List.range env.devices.length).map (fun di =>
          let d := env.devices.getD di ⟨false, []⟩
          if d.isWifi = true ∧ d.aps.contains best = true then
            [Event.activate di (paths.getD 0 0)]
          else [])).flatten
      else []
    else []
  else []

/-- The calls of one full loop iteration, in program order. -/
def cycleTrace (env : Env) : List Event :=
  [Event.queryKnown, Event.queryAvail, Event.queryCurrent]
    ++ priorityWrites env ++ activationEvents env

/-- The value of `noNetExtra_sleep` after the cycle: reset to `0` when
the ranked list is non-empty, otherwise grown. -/
def cycleDelay (env : Env) (d : ℚ) : ℚ :=
  if (rankedOf env).isEmpty then growDelay d else 0

/-- The extra (backoff) delay slept during the cycle, on top of the fixed
30-second interval: the entering delay in an empty cycle, nothing
otherwise. -/
def cycleExtraSleep (env : Env) (d : ℚ) : ℚ :=
  if (rankedOf env).isEmpty then d else 0

/-! ## `getKnownNetworks` (lines 41–67) over abstract profile data

The D-Bus settings of a profile are nested string-keyed groups with
dynamic values.  The unchecked Go type assertion
`cs["802-11-wireless"]["ssid"].([]uint8)` is a runtime panic whenever the
key is missing or holds a non-byte-string; the panic is the `Except`
error. -/

/-- A dynamic value inside a settings group. -/
inductive SettVal where
  | str (s : String)
  | bytes (s : String)
  | num (n : Nat)
deriving DecidableEq, Repr

/-- The nested settings map of one profile. -/
abbrev ConnSettings : Type := List (String × List (String × SettVal))

/-- Go `cs[grp][key]` with Go's zero-value behaviour for missing keys. -/
def lookup2 (cs : ConnSettings) (grp key : String) : Option SettVal :=
  match List.lookup grp cs with
  | none => none
  | some m => List.lookup key m

/-- One saved profile as `getKnownNetworks` sees it: `none` when
`conn.GetSettings()` fails. -/
structure ConnResult where
  settings : Option ConnSettings

/-- The per-profile loop of `getKnownNetworks`.  A settings read failure
skips the profile (`continue`); a wireless profile whose `ssid` field is
missing or not a byte string hits the unchecked type assertion and
panics (`Except.error ()`); otherwise the SSID is collected when the
`timestamp` key is present. -/
def knownOfConns : List ConnResult → Except Unit (List String)
  | [] => .ok []
  | c :: rest =>
    match c.settings with
    | none => knownOfConns rest
    | some cs =>
      if lookup2 cs "connection" "type" = some (.str "802-11-wireless") then
        match lookup2 cs "802-11-wireless" "ssid" with
        | some (.bytes s) =>
          match knownOfConns rest with
          | .error e => .error e
          | .ok known =>
            if (lookup2 cs "connection" "timestamp").isSome then .ok (s :: known)
            else .ok known
        | _ => .error ()
      else knownOfConns rest

/-! ## Projections and concrete instances used by the theorems -/

/-- Forget the `frequency` field (keep everything the comparison can
see). -/
def eraseFreq (w : Wifin) : Wifin := { w with frequency := 0 }

/-- Thirteen observations with equal SSIDs, signal strengths drawn from
`{1, 2, 3}` and the frequency field used as an inert tag recording the
input position. -/
def c2Input : List Wifin :=
  [⟨"x", 0, 1, false⟩, ⟨"x", 1, 2, false⟩, ⟨"x", 2, 2, false⟩, ⟨"x", 3, 3, false⟩,
   ⟨"x", 4, 1, false⟩, ⟨"x", 5, 3, false⟩, ⟨"x", 6, 2, false⟩, ⟨"x", 7, 1, false⟩,
   ⟨"x", 8, 3, false⟩, ⟨"x", 9, 2, false⟩, ⟨"x", 10, 1, false⟩, ⟨"x", 11, 2, false⟩,
   ⟨"x", 12, 3, false⟩]

/-- A cycle in which nothing is visible. -/
def envC6 : Env := ⟨[], [], "", fun _ => [], []⟩

/-- Another cycle in which nothing is visible. -/
def envC7 : Env := ⟨["Home"], [], "Home", fun _ => [1], [⟨true, []⟩]⟩

/-- Three unknown networks, already in descending signal order; SSID
`c` has one saved profile, path `7`. -/
def envC4 : Env :=
  ⟨[], [⟨"c", 0, 30, false⟩, ⟨"b", 0, 20, false⟩, ⟨"a", 0, 10, false⟩], "",
   fun s => if s = "c" then [7] else [], []⟩

/-- One known network `N`, not currently connected, one matching profile
(path `3`), and three devices of which two are wireless and see `N`. -/
def envC10 : Env :=
  ⟨["N"], [⟨"N", 5180, 80, false⟩], "",
   fun s => if s = "N" then [3] else [],
   [⟨true, ["N"]⟩, ⟨true, ["M", "N"]⟩, ⟨false, ["N"]⟩]⟩

/-- A cycle with one visible network (the backoff delay resets). -/
def envC1 : Env := ⟨["N"], [⟨"N", 5180, 80, false⟩], "N", fun _ => [], []⟩

/-- Two observations; frequencies as collected. -/
def c8l1 : List Wifin := [⟨"a", 2412, 50, false⟩, ⟨"b", 5180, 50, false⟩]

/-- The same two observations with entirely different frequencies. -/
def c8l2 : List Wifin := [⟨"a", 99999, 50, false⟩, ⟨"b", 7, 50, false⟩]

/-- A wireless profile whose settings lack the `802-11-wireless.ssid`
byte-string field. -/
def badProfile : ConnResult :=
  ⟨some [("connection", [("type", SettVal.str "802-11-wireless"), ("timestamp", SettVal.num 12345)])]⟩

/-! ## Theorems -/

/-- Raising the known flag via the set of known SSIDs. -/
theorem markKnown_of_mem {known : List String} {w : Wifin} (h : w.ssid ∈ known) :
    markKnown known w = { w with isKnown := true } := by
  unfold markKnown
  rw [if_pos]
  rw [List.any_eq_true]
  exact ⟨w.ssid, h, by simp⟩

/-- An SSID outside the known set leaves the observation unchanged. -/
theorem markKnown_of_not_mem {known : List String} {w : Wifin} (h : w.ssid ∉ known) :
    markKnown known w = w := by
  unfold markKnown
  rw [if_neg]
  intro hc
  rw [List.any_eq_true] at hc
  obtain ⟨x, hx, hbeq⟩ := hc
  have hwx : w.ssid = x := by simpa using hbeq
  exact h (hwx ▸ hx)

/-- C3: The ranking comparator orders any two observations by strict
precedence: an observation whose SSID is in the known set sorts before
one that is not, regardless of signal strength; with equal known flags
the higher signal strength sorts first; and only when both of these keys
tie does the SSID band score (descending) decide. -/
theorem C3_ranking_precedence (known : List String) (a b : Wifin) :
    (a.isKnown = false → b.isKnown = false → a.ssid ∈ known → b.ssid ∉ known →
      rankLess (markKnown known a) (markKnown known b) = true ∧
      rankLess (markKnown known b) (markKnown known a) = false) ∧
    (a.isKnown = b.isKnown → a.strength > b.strength →
      rankLess a b = true ∧ rankLess b a = false) ∧
    (a.isKnown = b.isKnown → a.strength = b.strength →
      rankLess a b = decide (getFrequencyPriority a.ssid > getFrequencyPriority b.ssid)) := by
  refine ⟨?_, ?_, ?_⟩
  · intro ha hb hma hmb
    rw [markKnown_of_mem hma, markKnown_of_not_mem hmb]
    unfold rankLess
    simp [ha, hb]
  · intro hk hs
    unfold rankLess
    rw [hk]
    simp only [ne_eq, not_true_eq_false, if_false, ite_not]
    rw [if_neg (by omega), if_neg (by omega)]
    constructor
    · simp [hs]
    · simp [Nat.lt_asymm hs]
  · intro hk hs
    unfold rankLess
    rw [hk, hs]
    simp

/-- Witness for C3 at concrete observations. -/
theorem C3_witness :
    rankLess (markKnown ["alpha"] ⟨"alpha", 2412, 10, false⟩) (markKnown ["alpha"] ⟨"beta", 5180, 99, false⟩) = true ∧
    rankLess (⟨"a", 0, 80, true⟩ : Wifin) ⟨"b", 0, 30, true⟩ = true := by
  refine ⟨((C3_ranking_precedence ["alpha"] ⟨"alpha", 2412, 10, false⟩ ⟨"beta", 5180, 99, false⟩).1
    rfl rfl (by decide) (by decide)).1, ?_⟩
  exact ((C3_ranking_precedence [] ⟨"a", 0, 80, true⟩ ⟨"b", 0, 30, true⟩).2.1 rfl (by decide)).1

/-- C5: The band score maps an SSID, after lower-casing, to exactly
60 / 50 / 24 / 0 by the keyword table, and with identical known flags
and signal strengths the name `Home-5G` ranks before `Home-2G`. -/
theorem C5_band_score (s : String) :
    getFrequencyPriority s =
      (if strContains (strToLower s) "6ghz" = true ∨ strContains (strToLower s) "6g" = true then 60
       else if strContains (strToLower s) "5ghz" = true ∨ strContains (strToLower s) "5g" = true then 50
       else if strContains (strToLower s) "2.4ghz" = true ∨ strContains (strToLower s) "2ghz" = true
              ∨ strContains (strToLower s) "2g" = true then 24
       else 0) ∧
    rankLists ["Home-2G", "Home-5G"]
        [⟨"Home-2G", 2437, 70, false⟩, ⟨"Home-5G", 5180, 70, false⟩] =
      [⟨"Home-5G", 5180, 70, true⟩, ⟨"Home-2G", 2437, 70, true⟩] := by
  constructor
  · unfold getFrequencyPriority
    simp only [Bool.or_eq_true, or_assoc]
  · decide

/-- C2: Go's `sort.Slice` (pdqsort) is not stable on the ranking
comparator: in `c2Input` the observations tagged `3` and `5` carry equal
sort keys and appear in tag order, yet the ranked output reorders them
(and the other equal-key groups). -/
theorem C2_unstable :
    rankLess ⟨"x", 3, 3, false⟩ ⟨"x", 5, 3, false⟩ = false ∧
    rankLess ⟨"x", 5, 3, false⟩ ⟨"x", 3, 3, false⟩ = false ∧
    c2Input.getD 3 wifinDefault = ⟨"x", 3, 3, false⟩ ∧
    c2Input.getD 5 wifinDefault = ⟨"x", 5, 3, false⟩ ∧
    (rankLists [] c2Input).map (fun w => (w.strength, w.frequency)) =
      [(3, 5), (3, 12), (3, 8), (3, 3), (2, 6), (2, 2), (2, 9), (2, 11), (2, 1),
       (1, 4), (1, 0), (1, 7), (1, 10)] := by
  decide

/-- C9: A profile whose settings read fails is skipped, but a
wireless profile without a byte-string `ssid` hits the unchecked type
assertion and the enumeration panics instead of skipping it. -/
theorem C9_malformed_profile_panics :
    knownOfConns [badProfile] = .error () ∧
    (∀ rest, knownOfConns ({ settings := none } :: rest) = knownOfConns rest) :=
  ⟨rfl, fun _ => rfl⟩

/-- Every event of the priority-write loop is a `setPriority`. -/
theorem priorityWrites_shape (env : Env) (e : Event) (he : e ∈ priorityWrites env) :
    ∃ p v, e = Event.setPriority p v := by
  unfold priorityWrites at he
  rcases List.mem_flatten.1 he with ⟨l, hl, hel⟩
  rcases List.mem_map.1 hl with ⟨idx, _, rfl⟩
  rcases List.mem_map.1 hel with ⟨p, _, rfl⟩
  exact ⟨p, _, rfl⟩

/-- Every event of the activation block is an `activate`. -/
theorem activationEvents_shape (env : Env) (e : Event) (he : e ∈ activationEvents env) :
    ∃ d p, e = Event.activate d p := by
  simp only [activationEvents] at he
  split at he
  · split at he
    · split at he
      · rcases List.mem_flatten.1 he with ⟨l, hl, hel⟩
        rcases List.mem_map.1 hl with ⟨di, _, rfl⟩
        split at hel
        · rcases List.mem_singleton.1 hel with rfl
          exact ⟨di, _, rfl⟩
        · exact absurd hel (List.not_mem_nil e)
      · exact absurd he (List.not_mem_nil e)
    · exact absurd he (List.not_mem_nil e)
  · exact absurd he (List.not_mem_nil e)

/-- C4: For a ranked list of length `N`, the entry at index `idx`
produces a `setPriority` write with value `(N - idx) + 10` for every
saved profile matching its SSID; a length-3 list yields the values
`[13, 12, 11]`. -/
theorem C4_priority_assignment (env : Env) (idx : Nat) (h : idx < (rankedOf env).length) :
    (∀ p ∈ env.profilesFor ((rankedOf env).getD idx wifinDefault).ssid,
      Event.setPriority p (prioVal (rankedOf env).length idx) ∈ cycleTrace env) ∧
    (List.range 3).map (prioVal 3) = [13, 12, 11] := by
  constructor
  · intro p hp
    unfold cycleTrace
    refine List.mem_append.2 (Or.inl (List.mem_append.2 (Or.inr ?_)))
    unfold priorityWrites
    refine List.mem_flatten.2 ⟨_, List.mem_map.2 ⟨idx, List.mem_range.2 h, rfl⟩, ?_⟩
    exact List.mem_map.2 ⟨p, hp, rfl⟩
  · decide

/-- Witness for C4: in a three-candidate cycle the top entry's profile
(path `7`) receives priority `prioVal 3 0 = 13`. -/
theorem C4_witness :
    Event.setPriority 7 (prioVal (rankedOf envC4).length 0) ∈ cycleTrace envC4 ∧
    prioVal (rankedOf envC4).length 0 = 13 := by
  refine ⟨(C4_priority_assignment envC4 0 (by decide)).1 7 (by decide), by decide⟩

/-- C7: A cycle whose ranked list is empty performs no priority
write and no activation: its trace is exactly the three reads. -/
theorem C7_empty_cycle (env : Env) (h : rankedOf env = []) :
    cycleTrace env = [Event.queryKnown, Event.queryAvail, Event.queryCurrent] := by
  unfold cycleTrace priorityWrites activationEvents
  rw [h]
  simp

/-- Witness for C7 at a concrete empty cycle. -/
theorem C7_witness :
    cycleTrace envC7 = [Event.queryKnown, Event.queryAvail, Event.queryCurrent] :=
  C7_empty_cycle envC7 (by decide)

/-- C6, counterexample: A cycle does not begin with a scan request:
there is no scan-request call site, and the first external call reads the
known networks. -/
theorem C6_counterexample :
    (cycleTrace envC6).head? = some Event.queryKnown ∧
    Event.scanRequest ∉ cycleTrace envC6 := by
  decide

/-- C6, amended: No cycle issues a scan request (the source leaves
the trigger as a comment); every cycle instead begins with the three
reads: known networks, visible networks, current SSID. -/
theorem C6_no_scan_request (env : Env) :
    Event.scanRequest ∉ cycleTrace env ∧
    (cycleTrace env).take 3 = [Event.queryKnown, Event.queryAvail, Event.queryCurrent] := by
  constructor
  · intro hmem
    unfold cycleTrace at hmem
    rcases List.mem_append.1 hmem with h12 | ha
    · rcases List.mem_append.1 h12 with h3 | hw
      · simp at h3
      · obtain ⟨p, v, hpv⟩ := priorityWrites_shape env _ hw
        exact Event.noConfusion hpv
    · obtain ⟨d, p, hdp⟩ := activationEvents_shape env _ ha
      exact Event.noConfusion hdp
  · rfl

/-- Witness for C6 (amended) at a concrete cycle. -/
theorem C6_witness :
    Event.scanRequest ∉ cycleTrace envC1 ∧
    (cycleTrace envC1).take 3 = [Event.queryKnown, Event.queryAvail, Event.queryCurrent] :=
  C6_no_scan_request envC1

/-- Flattening singleton-or-empty blocks counts exactly the hits. -/
theorem length_flatten_ite_singleton {α β : Type} (l : List α) (P : α → Prop)
    [DecidablePred P] (f : α → β) :
    ((l.map (fun x => if P x then [f x] else [])).flatten).length
      = (l.filter (fun x => decide (P x))).length := by
  induction l with
  | nil => rfl
  | cons x xs ih =>
    by_cases hx : P x <;>
      simp [List.filter_cons, hx, ih]

/-- C10: When the ranked list is non-empty, its best SSID differs
from the current one and a saved profile matches it, the activation
block issues exactly one activation per wireless device that sees an
access point with the best SSID, each using the first matching profile
path. -/
theorem C10_activation_per_device (env : Env) (bestNet : Wifin) (rest : List Wifin)
    (hr : rankedOf env = bestNet :: rest)
    (hcur : bestNet.ssid ≠ env.current)
    (hp : env.profilesFor bestNet.ssid ≠ []) :
    (activationEvents env).length =
      ((List.range env.devices.length).filter (fun di =>
        decide ((env.devices.getD di ⟨false, []⟩).isWifi = true ∧
          ((env.devices.getD di ⟨false, []⟩).aps.contains bestNet.ssid) = true))).length ∧
    (∀ di, di < env.devices.length →
      (env.devices.getD di ⟨false, []⟩).isWifi = true →
      ((env.devices.getD di ⟨false, []⟩).aps.contains bestNet.ssid) = true →
      Event.activate di ((env.profilesFor bestNet.ssid).getD 0 0) ∈ cycleTrace env) := by
  have hlen : 0 < (rankedOf env).length := by rw [hr]; exact Nat.succ_pos _
  have hget : (rankedOf env).getD 0 wifinDefault = bestNet := by rw [hr]; rfl
  have hplen : 0 < (env.profilesFor bestNet.ssid).length := List.length_pos.2 hp
  constructor
  · unfold activationEvents
    rw [if_pos hlen, hget, if_pos hcur, if_pos hplen]
    exact length_flatten_ite_singleton _ _ _
  · intro di hdi hwifi haps
    unfold cycleTrace
    refine List.mem_append.2 (Or.inr ?_)
    unfold activationEvents
    rw [if_pos hlen, hget, if_pos hcur, if_pos hplen]
    refine List.mem_flatten.2 ⟨_, List.mem_map.2 ⟨di, List.mem_range.2 hdi, rfl⟩, ?_⟩
    rw [if_pos ⟨hwifi, haps⟩]
    exact List.mem_singleton.2 rfl

/-- Witness for C10: with two wireless devices seeing the best SSID, a
single cycle issues two activation calls. -/
theorem C10_witness :
    (activationEvents envC10).length = 2 ∧
    Event.activate 1 ((envC10.profilesFor "N").getD 0 0) ∈ cycleTrace envC10 := by
  have h := C10_activation_per_device envC10 ⟨"N", 5180, 80, true⟩ []
    (by decide) (by decide) (by decide)
  exact ⟨by rw [h.1]; decide, h.2 1 (by decide) (by decide) (by decide)⟩

/-- The floor step of the growth is at least 500 ms. -/
theorem growFloor_ge (d : ℚ) : 500 ≤ if d < 500 then 500 else d := by
  split
  · norm_num
  · rename_i h
    rw [not_lt] at h
    exact h

/-- The grown delay is at least 500 ms. -/
theorem growDelay_ge (d : ℚ) : 500 ≤ growDelay d := by
  unfold growDelay
  dsimp only
  set d1 := if d < 500 then 500 else d with hd1
  have hd1ge : (500 : ℚ) ≤ d1 := growFloor_ge d
  split
  · norm_num
  · linarith

/-- The grown delay never exceeds the 100 s cap. -/
theorem growDelay_le_cap (d : ℚ) : growDelay d ≤ 100000 := by
  unfold growDelay
  dsimp only
  set d1 := if d < 500 then 500 else d with hd1
  split
  · norm_num
  · rename_i h
    rw [not_lt] at h
    exact h

/-- Above the 500 ms floor the growth is plain `× 6/5` with the cap. -/
theorem growDelay_of_ge (d : ℚ) (h : 500 ≤ d) : growDelay d = min (d * (6 / 5)) 100000 := by
  unfold growDelay
  dsimp only
  rw [if_neg (not_lt.2 h)]
  split
  · rename_i h2
    rw [min_eq_right (le_of_lt h2)]
  · rename_i h2
    rw [not_lt] at h2
    rw [min_eq_left h2]

/-- Unfolding one step of the slept-delay sequence. -/
theorem sleptSeq_succ (n : Nat) : sleptSeq (n + 1) = growDelay (sleptSeq n) :=
  Function.iterate_succ_apply' _ _ _

/-- From the second empty cycle on, the slept delay is at least 500 ms. -/
theorem sleptSeq_ge (n : Nat) (h : 1 ≤ n) : 500 ≤ sleptSeq n := by
  cases n with
  | zero => exact absurd h (by norm_num)
  | succ m => rw [sleptSeq_succ]; exact growDelay_ge _

/-- C1, counterexample: The delay slept in the second consecutive
empty cycle is 600 ms, not the claimed 500 ms: the growth step both
raises a zero delay to 500 ms and multiplies by 1.2 before the next
sleep. -/
theorem C1_counterexample : sleptSeq 1 = 600 ∧ (600 : ℚ) ≠ 500 := by
  constructor
  · show growDelay^[1] (0 : ℚ) = 600
    rw [Function.iterate_one]
    norm_num [growDelay]
  · norm_num

/-- C1, amended: Across consecutive empty cycles from a fresh state
the extra delays slept are 0, 600 ms, 720 ms, 864 ms, …, every later
step multiplying by 1.2 and capping at 100 s, never exceeding 100 s; a
cycle with at least one ranked network resets the delay to 0, and an
empty cycle sleeps the current delay and then grows it. -/
theorem C1_backoff (n : Nat) (env : Env) (d : ℚ) :
    sleptSeq 0 = 0 ∧ sleptSeq 1 = 600 ∧ sleptSeq 2 = 720 ∧ sleptSeq 3 = 864 ∧
    (1 ≤ n → sleptSeq (n + 1) = min (sleptSeq n * (6 / 5)) 100000) ∧
    sleptSeq n ≤ 100000 ∧
    ((rankedOf env).isEmpty = false → cycleDelay env d = 0) ∧
    ((rankedOf env).isEmpty = true → cycleExtraSleep env d = d ∧ cycleDelay env d = growDelay d) := by
  have h0 : sleptSeq 0 = 0 := rfl
  have h1 : sleptSeq 1 = 600 := by
    rw [sleptSeq_succ, h0]; norm_num [growDelay]
  have h2 : sleptSeq 2 = 720 := by
    rw [sleptSeq_succ, h1]; norm_num [growDelay]
  have h3 : sleptSeq 3 = 864 := by
    rw [sleptSeq_succ, h2]; norm_num [growDelay]
  refine ⟨h0, h1, h2, h3, ?_, ?_, ?_, ?_⟩
  · intro hn
    rw [sleptSeq_succ, growDelay_of_ge _ (sleptSeq_ge n hn)]
  · cases n with
    | zero => rw [h0]; norm_num
    | succ m => rw [sleptSeq_succ]; exact growDelay_le_cap _
  · intro he
    unfold cycleDelay
    simp [he]
  · intro he
    unfold cycleExtraSleep cycleDelay
    simp [he]

/-- Witness for C1 (amended): the third slept delay follows the
multiply-and-cap law from the second, and a concrete non-empty cycle
resets the delay. -/
theorem C1_witness :
    sleptSeq 2 = min (sleptSeq 1 * (6 / 5)) 100000 ∧ cycleDelay envC1 777 = 0 := by
  refine ⟨(C1_backoff 1 envC1 777).2.2.2.2.1 (by norm_num),
    (C1_backoff 1 envC1 777).2.2.2.2.2.2.1 (by decide)⟩

/-- The ranking comparator never reads the frequency field. -/
theorem rankLess_eraseFreq (x y : Wifin) :
    rankLess (eraseFreq x) (eraseFreq y) = rankLess x y := rfl

/-- Known-marking commutes with forgetting the frequency. -/
theorem markKnown_eraseFreq (known : List String) (w : Wifin) :
    markKnown known (eraseFreq w) = eraseFreq (markKnown known w) := by
  cases w
  simp only [markKnown, eraseFreq]
  split <;> rfl

/-- C8: Two-run noninterference with respect to `frequencyMHz`: two
observation lists identical except in their frequency values are ranked
into the same SSID order. -/
theorem C8_frequency_noninterference (known : List String) (l₁ l₂ : List Wifin)
    (h : l₁.map eraseFreq = l₂.map eraseFreq) :
    (rankLists known l₁).map Wifin.ssid = (rankLists known l₂).map Wifin.ssid := by
  have hm : (l₁.map (markKnown known)).map eraseFreq
      = (l₂.map (markKnown known)).map eraseFreq := by
    rw [List.map_map, List.map_map]
    have hcomp : eraseFreq ∘ markKnown known = markKnown known ∘ eraseFreq :=
      funext fun w => (markKnown_eraseFreq known w).symm
    rw [hcomp, ← List.map_map, ← List.map_map, h]
  set m₁ := l₁.map (markKnown known) with hm₁
  set m₂ := l₂.map (markKnown known) with hm₂
  have hlen : m₁.length = m₂.length := by
    have := congrArg List.length hm
    simpa using this
  have hpt : ∀ u, eraseFreq (m₁.getD u wifinDefault) = eraseFreq (m₂.getD u wifinDefault) := by
    intro u
    calc eraseFreq (m₁.getD u wifinDefault)
        = (m₁.map eraseFreq).getD u (eraseFreq wifinDefault) :=
          (List.getD_map m₁ wifinDefault eraseFreq).symm
      _ = (m₂.map eraseFreq).getD u (eraseFreq wifinDefault) := by rw [hm]
      _ = eraseFreq (m₂.getD u wifinDefault) := List.getD_map m₂ wifinDefault eraseFreq
  have ho : (fun u v => rankLess (m₁.getD u wifinDefault) (m₁.getD v wifinDefault))
      = fun u v => rankLess (m₂.getD u wifinDefault) (m₂.getD v wifinDefault) := by
    funext u v
    rw [← rankLess_eraseFreq (m₁.getD u wifinDefault) (m₁.getD v wifinDefault), hpt u, hpt v,
      rankLess_eraseFreq]
  have hfun : (Wifin.ssid ∘ fun u => m₁.getD u wifinDefault)
      = (Wifin.ssid ∘ fun u => m₂.getD u wifinDefault) := by
    funext u
    have h5 := congrArg Wifin.ssid (hpt u)
    exact h5
  show ((sortSlicePerm (fun u v => rankLess (m₁.getD u wifinDefault) (m₁.getD v wifinDefault))
      m₁.length).map (fun u => m₁.getD u wifinDefault)).map Wifin.ssid
    = ((sortSlicePerm (fun u v => rankLess (m₂.getD u wifinDefault) (m₂.getD v wifinDefault))
      m₂.length).map (fun u => m₂.getD u wifinDefault)).map Wifin.ssid
  rw [List.map_map, List.map_map, ho, hlen, hfun]

/-- Witness for C8 at two concrete lists differing only in frequency. -/
theorem C8_witness :
    (rankLists ["a"] c8l1).map Wifin.ssid = (rankLists ["a"] c8l2).map Wifin.ssid :=
  C8_frequency_noninterference ["a"] c8l1 c8l2 (by decide)

end LaptopWifi
